import Mathlib

/-!
Shallow embedding of the synchronization syscalls (`os/src/syscall/sync.rs`),
the priority syscall (`os/src/syscall/process.rs`) and the stride scheduler
(`os/src/task/manager.rs`) of the rCore-based teaching kernel.

Vectors (`alloc::vec::Vec<usize>`) are modelled as `List Nat`; an indexing
operation `v[i]` that would panic when out of bounds, an `Option::unwrap` on
an empty slot, and an unsigned subtraction that would underflow are all
modelled by `Option`: `none` is a kernel panic.  Syscalls that touch the
tables of the current process take the process state explicitly and return
the updated state.  The deadlock detector `has_mutex_deadlock` lives outside
the embedded files, so the syscalls take it as an explicit function
parameter `d`; the embedding records exactly which arguments the source
passes to it.
-/

/-- Checked write `l[i] = v`: `none` when `i` is out of bounds (a Rust panic). -/
def setNth (l : List α) (i : Nat) (v : α) : Option (List α) :=
  if i < l.length then some (l.set i v) else none

/-- Checked matrix read `m[t][r]`. -/
def getMat (m : List (List Nat)) (t r : Nat) : Option Nat := do
  let row ← m.get? t
  row.get? r

/-- Checked matrix write `m[t][r] = v`. -/
def setMat (m : List (List Nat)) (t r : Nat) (v : Nat) : Option (List (List Nat)) := do
  let row ← m.get? t
  let row2 ← setNth row r v
  setNth m t row2

/-- Checked `usize` subtraction: `none` is the underflow panic branch. -/
def subChecked (a b : Nat) : Option Nat :=
  if b ≤ a then some (a - b) else none

/-- Total matrix read used in statements: `m[t][r]` with default 0. -/
def getMatD (m : List (List Nat)) (t r : Nat) : Nat :=
  (m.getD t []).getD r 0

/-- Model of `Vec::resize(n, v)`: truncate or pad with `v` up to length `n`. -/
def vecResize (l : List Nat) (n : Nat) (v : Nat) : List Nat :=
  if n ≤ l.length then l.take n else l ++ List.replicate (n - l.length) v

/-- The two mutex variants created by `sys_mutex_create`. -/
inductive MutexKind where
  | spin
  | blocking
deriving Repr, DecidableEq

/-- The fields of `ProcessControlBlockInner` that the sync syscalls read and
write: the three slot tables, the banker's tables of the two resource
classes, and the deadlock-detection flag.  A semaphore slot stores its
`res_count`; a condvar-free model (condvars keep no tables). -/
structure ProcState where
  mutex_list : List (Option MutexKind)
  available_mutex : List Nat
  need_mutex : List (List Nat)
  allocation_mutex : List (List Nat)
  semaphore_list : List (Option Nat)
  available_sem : List Nat
  need_sem : List (List Nat)
  allocation_sem : List (List Nat)
  deadlock_detect_enabled : Bool
deriving Repr, DecidableEq

/-- The type of the external deadlock detector `has_mutex_deadlock`:
first argument is the index the caller passes (the source passes `tid` on
the mutex path and `sem_id` on the semaphore path), then the snapshots of
`available`, `need`, `allocation`. -/
def Detector : Type :=
  Nat → List Nat → List (List Nat) → List (List Nat) → Bool

/-- Result of `sys_mutex_lock` / `sys_semaphore_down`: the returned status,
the process state after the call, and whether the blocking primitive
operation (`mutex.lock()` / `sem.down()`) was actually invoked. -/
structure LockResult where
  ret : Int
  state : ProcState
  acquired : Bool
deriving Repr, DecidableEq

/-- Model of `sys_mutex_create(blocking)`: reuse the first `None` slot, else append;
the append branch resizes `available_mutex` before writing the new entry. -/
def sys_mutex_create (blocking : Bool) (s : ProcState) : Option (Int × ProcState) :=
  let mutex : Option MutexKind := if !blocking then some .spin else some .blocking
  match s.mutex_list.findIdx? (fun item => item.isNone) with
  | some id => do
    let am ← setNth s.available_mutex id 1
    some ((id : Int),
      { s with mutex_list := s.mutex_list.set id mutex, available_mutex := am })
  | none => do
    let new_id := s.mutex_list.length
    let am0 := vecResize s.available_mutex (new_id + 1) 0
    let am ← setNth am0 new_id 1
    some ((new_id : Int),
      { s with mutex_list := s.mutex_list ++ [mutex], available_mutex := am })

/-- Model of `sys_mutex_lock(mutex_id)` for calling thread `tid` with detector `d`. -/
def sys_mutex_lock (tid mutex_id : Nat) (d : Detector) (s : ProcState) :
    Option LockResult := do
  let slot ← s.mutex_list.get? mutex_id
  let _ ← slot
  let nm ← setMat s.need_mutex tid mutex_id 1
  let s1 := { s with need_mutex := nm }
  if s1.deadlock_detect_enabled &&
      d tid s1.available_mutex s1.need_mutex s1.allocation_mutex then
    some ⟨-0xdead, s1, false⟩
  else do
    let am ← setNth s1.available_mutex mutex_id 0
    let nm2 ← setMat s1.need_mutex tid mutex_id 0
    let al ← setMat s1.allocation_mutex tid mutex_id 1
    some ⟨0,
      { s1 with available_mutex := am, need_mutex := nm2, allocation_mutex := al },
      true⟩

/-- Model of `sys_mutex_unlock(mutex_id)` for calling thread `tid`. -/
def sys_mutex_unlock (tid mutex_id : Nat) (s : ProcState) : Option (Int × ProcState) := do
  let slot ← s.mutex_list.get? mutex_id
  let _ ← slot
  let am ← setNth s.available_mutex mutex_id 1
  let al ← setMat s.allocation_mutex tid mutex_id 0
  some (0, { s with available_mutex := am, allocation_mutex := al })

/-- Model of `sys_semaphore_create(res_count)`: reuse the first `None` slot, else
append; the append branch writes `available_sem[new_id]` without resizing. -/
def sys_semaphore_create (res_count : Nat) (s : ProcState) : Option (Int × ProcState) :=
  match s.semaphore_list.findIdx? (fun item => item.isNone) with
  | some id => do
    let av ← setNth s.available_sem id res_count
    some ((id : Int),
      { s with semaphore_list := s.semaphore_list.set id (some res_count),
               available_sem := av })
  | none => do
    let new_id := s.semaphore_list.length
    let av ← setNth s.available_sem new_id res_count
    some ((new_id : Int),
      { s with semaphore_list := s.semaphore_list ++ [some res_count],
               available_sem := av })

/-- Model of `sys_semaphore_up(sem_id)` for calling thread `tid`. -/
def sys_semaphore_up (tid sem_id : Nat) (s : ProcState) : Option (Int × ProcState) := do
  let slot ← s.semaphore_list.get? sem_id
  let _ ← slot
  let av0 ← s.available_sem.get? sem_id
  let av ← setNth s.available_sem sem_id (av0 + 1)
  let al0 ← getMat s.allocation_sem tid sem_id
  let al1 ← subChecked al0 1
  let al ← setMat s.allocation_sem tid sem_id al1
  some (0, { s with available_sem := av, allocation_sem := al })

/-- Model of `sys_semaphore_down(sem_id)` for calling thread `tid` with detector `d`.
The source passes `sem_id` (not `tid`) as the first detector argument, and
on success decrements `need_mutex[tid][sem_id]` (not `need_sem`). -/
def sys_semaphore_down (tid sem_id : Nat) (d : Detector) (s : ProcState) :
    Option LockResult := do
  let slot ← s.semaphore_list.get? sem_id
  let _ ← slot
  let n0 ← getMat s.need_sem tid sem_id
  let ns ← setMat s.need_sem tid sem_id (n0 + 1)
  let s1 := { s with need_sem := ns }
  if s1.deadlock_detect_enabled &&
      d sem_id s1.available_sem s1.need_sem s1.allocation_sem then
    some ⟨-0xdead, s1, false⟩
  else do
    let av0 ← s1.available_sem.get? sem_id
    let av1 ← subChecked av0 1
    let av ← setNth s1.available_sem sem_id av1
    let nm0 ← getMat s1.need_mutex tid sem_id
    let nm1 ← subChecked nm0 1
    let nm ← setMat s1.need_mutex tid sem_id nm1
    let al0 ← getMat s1.allocation_sem tid sem_id
    let al ← setMat s1.allocation_sem tid sem_id (al0 + 1)
    some ⟨0,
      { s1 with available_sem := av, need_mutex := nm, allocation_sem := al },
      true⟩

/-- Model of `sys_set_priority(prio)`: acts on the calling task's current priority
`cur`, returning the syscall result and the priority afterwards. -/
def sys_set_priority (prio : Int) (cur : Int) : Int × Int :=
  if prio ≤ 1 then (-1, cur) else (prio, prio)

namespace TaskManager

/-- The scan loop of `TaskManager::fetch`: walk the strides of the ready
queue left to right carrying `(min_index, min_stride)`, updating on every
non-strict `stride <= min_stride`.  `idx` is the index of the head of the
remaining list in the full queue. -/
def scanMin : List Nat → Nat → Nat → Nat → Nat × Nat
  | [], _, mi, ms => (mi, ms)
  | st :: rest, idx, mi, ms =>
    if st ≤ ms then scanMin rest (idx + 1) idx st
    else scanMin rest (idx + 1) mi ms

/-- Model of `TaskManager::fetch`, with a task represented by its stride.  `upd` is
`TaskControlBlock::update_stride` (defined outside the embedded files),
applied to the selected task before it is removed; `big` is `BIG_STRIDE`,
the initial value of `min_stride`.  Returns the removed task's stride after
the update, and the remaining queue. -/
def fetch (upd : Nat → Nat) (big : Nat) (q : List Nat) : Option (Nat × List Nat) :=
  if q.isEmpty then none
  else
    let mi := (scanMin q 0 0 big).1
    some (upd (q.getD mi 0), q.eraseIdx mi)

end TaskManager

/-- Per-resource column sum of an allocation matrix: the units of resource
`r` held over all threads. -/
def colSum : List (List Nat) → Nat → Nat
  | [], _ => 0
  | row :: rest, r => row.getD r 0 + colSum rest r

/-- The per-class banker invariant of the spec: for every resource slot `r`,
`available[r] + sum over threads of allocation[t][r] = total_units r`. -/
def classInv (avail : List Nat) (alloc : List (List Nat)) (total : Nat → Nat) : Prop :=
  ∀ r, r < avail.length → avail.getD r 0 + colSum alloc r = total r

instance (avail : List Nat) (alloc : List (List Nat)) (total : Nat → Nat) :
    Decidable (classInv avail alloc total) := by
  unfold classInv
  exact Nat.decidableBallLT _ _

/-- A process with no primitives created yet. -/
def emptyProc : ProcState :=
  ⟨[], [], [], [], [], [], [], [], false⟩

/-- A process whose single mutex slot and single semaphore slot are empty. -/
def procEmptySlots : ProcState :=
  ⟨[none], [0], [[0]], [[0]], [none], [0], [[0]], [[0]], false⟩

/-- A process with detection enabled, one spin mutex and one semaphore
(1 unit each), and one thread with empty banker rows. -/
def detectProc : ProcState :=
  ⟨[some .spin], [1], [[0]], [[0]], [some 1], [1], [[0]], [[0]], true⟩

/-- The detector that always reports unsafe. -/
def alwaysUnsafe : Detector := fun _ _ _ _ => true

/-- The detector that never reports unsafe. -/
def neverUnsafe : Detector := fun _ _ _ _ => false

/-- The detector that reports unsafe exactly when its index argument is 1. -/
def unsafeAtOne : Detector := fun i _ _ _ => i == 1

/-- A process with detection enabled, two semaphores (1 unit each), one
thread; `need_mutex[0][1] = 1` so that the (buggy) `need_mutex` decrement
in the success path of `sys_semaphore_down` does not underflow. -/
def semBugProc : ProcState :=
  ⟨[], [], [[0, 1]], [[0, 0]], [some 1, some 1], [1, 1], [[0, 0]], [[0, 0]], true⟩

/-- Two threads, one blocking mutex currently held by thread 1
(`allocation_mutex[1][0] = 1`, `available_mutex[0] = 0`). -/
def unlockBadProc : ProcState :=
  ⟨[some .blocking], [0], [[0], [0]], [[0], [1]], [], [], [], [], false⟩

/-- The state after thread 0 calls `sys_mutex_unlock(0)` on
`unlockBadProc`. -/
def unlockBadAfter : ProcState :=
  ⟨[some .blocking], [1], [[0], [0]], [[0], [1]], [], [], [], [], false⟩

/-- A process whose semaphore table is full (no `None` slot) and whose
`available_sem` has exactly the same length as `semaphore_list`. -/
def semFullProc : ProcState :=
  ⟨[], [], [], [], [some 1], [1], [[0]], [[0]], false⟩

/-- A process whose semaphore table is full but whose `available_sem` is
one entry longer than `semaphore_list`. -/
def semFullLongAvail : ProcState :=
  ⟨[some .spin], [1], [[0]], [[0]], [some 1], [1, 0], [[0, 0]], [[0, 0]], false⟩

/-- One semaphore with 1 unit, currently held by thread 0
(`allocation_sem[0][0] = 1`, `available_sem[0] = 0`). -/
def semUpProc : ProcState :=
  ⟨[], [], [], [], [some 1], [0], [[0]], [[1]], false⟩

example :
    sys_set_priority 5 2 = (5, 5) ∧ sys_set_priority 0 7 = (-1, 7) := by decide

example :
    TaskManager.fetch (fun st => st + 3) 10 [5, 3, 3, 4] = some (6, [5, 3, 4]) := by
  decide

theorem setNth_eq_some {α : Type} {l l' : List α} {i : Nat} {v : α} :
    setNth l i v = some l' ↔ i < l.length ∧ l' = l.set i v := by
  unfold setNth
  split <;> simp_all [eq_comm]

theorem setMat_eq_some {m m' : List (List Nat)} {t r v : Nat} :
    setMat m t r v = some m' ↔
      ∃ row, m.get? t = some row ∧ r < row.length ∧
        m' = m.set t (row.set r v) := by
  unfold setMat
  cases h : m.get? t with
  | none => simp [Option.bind, h]
  | some row =>
    obtain ⟨ht, -⟩ := List.get?_eq_some.mp h
    simp only [h, Option.bind_eq_bind, Option.some_bind, setNth]
    by_cases hr : r < row.length
    · simp [hr, ht, eq_comm]
    · simp [hr]

theorem getMat_eq_some {m : List (List Nat)} {t r v : Nat} :
    getMat m t r = some v ↔
      ∃ row, m.get? t = some row ∧ row.get? r = some v := by
  unfold getMat
  cases h : m.get? t <;> simp [Option.bind, h]

/-- C7: the task priority is always ≥ 2.  `sys_set_priority` rejects any
`prio ≤ 1` with `-1` and leaves the priority unchanged; for `prio ≥ 2` it
sets the priority to `prio` and returns `prio`; hence a priority that was
≥ 2 stays ≥ 2. -/
theorem sys_set_priority_spec (prio cur : Int) :
    (prio ≤ 1 → sys_set_priority prio cur = (-1, cur)) ∧
    (2 ≤ prio → sys_set_priority prio cur = (prio, prio)) ∧
    (2 ≤ cur → 2 ≤ (sys_set_priority prio cur).2) := by
  unfold sys_set_priority
  refine ⟨fun h => by rw [if_pos h], fun h => by rw [if_neg (by omega)], fun h => ?_⟩
  split
  · exact h
  · omega

theorem sys_set_priority_spec_witness :
    ((0 : Int) ≤ 1 ∧ sys_set_priority 0 7 = (-1, 7)) ∧
    ((2 : Int) ≤ 5 ∧ sys_set_priority 5 7 = (5, 5)) ∧
    ((2 : Int) ≤ 7 ∧ 2 ≤ (sys_set_priority 0 7).2) :=
  ⟨⟨by decide, (sys_set_priority_spec 0 7).1 (by decide)⟩,
   ⟨by decide, (sys_set_priority_spec 5 7).2.1 (by decide)⟩,
   ⟨by decide, (sys_set_priority_spec 0 7).2.2 (by decide)⟩⟩

/-- C2 counterexample: on an out-of-range id (no mutex/semaphore ever
created) all four operations panic (`none`); none of them returns `-1`. -/
theorem invalid_id_cex :
    sys_mutex_lock 0 0 (fun _ _ _ _ => false) emptyProc = none ∧
    sys_mutex_unlock 0 0 emptyProc = none ∧
    sys_semaphore_down 0 0 (fun _ _ _ _ => false) emptyProc = none ∧
    sys_semaphore_up 0 0 emptyProc = none := by
  decide

/-- C2 (amended): an id that is out of range or whose slot is empty is
fatal: `sys_mutex_lock`, `sys_mutex_unlock`, `sys_semaphore_down` and
`sys_semaphore_up` all panic (the `unwrap`/indexing of the slot), rather
than returning `-1`. -/
theorem invalid_id_panics (s : ProcState) (tid id : Nat) (d : Detector) :
    ((s.mutex_list.get? id = none ∨ s.mutex_list.get? id = some none) →
      sys_mutex_lock tid id d s = none ∧ sys_mutex_unlock tid id s = none) ∧
    ((s.semaphore_list.get? id = none ∨ s.semaphore_list.get? id = some none) →
      sys_semaphore_down tid id d s = none ∧ sys_semaphore_up tid id s = none) := by
  constructor <;> rintro (h | h) <;>
    rw [List.get?_eq_getElem?] at h <;>
    simp [sys_mutex_lock, sys_mutex_unlock, sys_semaphore_down, sys_semaphore_up,
      h, Option.bind]

/-- C1: with deadlock detection enabled, a `sys_mutex_lock` or
`sys_semaphore_down` whose safety check — as the code invokes it, on the
snapshot taken after the `need` update — reports unsafe returns the
sentinel `-0xdead` (distinct from the generic `-1`), does not invoke the
blocking primitive (`acquired = false`), and leaves the `allocation` and
`available` tables of that resource class exactly as they were (only the
`need` table of the class carries the step-1 update). -/
theorem unsafe_request_returns_sentinel :
    ((-0xdead : Int) ≠ -1) ∧
    (∀ (tid mutex_id : Nat) (d : Detector) (s : ProcState) (k : MutexKind)
        (nm : List (List Nat)),
      s.deadlock_detect_enabled = true →
      s.mutex_list.get? mutex_id = some (some k) →
      setMat s.need_mutex tid mutex_id 1 = some nm →
      d tid s.available_mutex nm s.allocation_mutex = true →
      sys_mutex_lock tid mutex_id d s =
        some ⟨-0xdead, { s with need_mutex := nm }, false⟩) ∧
    (∀ (tid sem_id : Nat) (d : Detector) (s : ProcState) (c n0 : Nat)
        (ns : List (List Nat)),
      s.deadlock_detect_enabled = true →
      s.semaphore_list.get? sem_id = some (some c) →
      getMat s.need_sem tid sem_id = some n0 →
      setMat s.need_sem tid sem_id (n0 + 1) = some ns →
      d sem_id s.available_sem ns s.allocation_sem = true →
      sys_semaphore_down tid sem_id d s =
        some ⟨-0xdead, { s with need_sem := ns }, false⟩) := by
  refine ⟨by decide, ?_, ?_⟩
  · intro tid mutex_id d s k nm hen hslot hset hd
    rw [List.get?_eq_getElem?] at hslot
    simp [sys_mutex_lock, hslot, hset, Option.bind, hen, hd]
  · intro tid sem_id d s c n0 ns hen hslot hget hset hd
    rw [List.get?_eq_getElem?] at hslot
    simp [sys_semaphore_down, hslot, hget, hset, Option.bind, hen, hd]

theorem unsafe_request_returns_sentinel_witness :
    ((-0xdead : Int) ≠ -1) ∧
    (detectProc.deadlock_detect_enabled = true ∧
      detectProc.mutex_list.get? 0 = some (some .spin) ∧
      setMat detectProc.need_mutex 0 0 1 = some [[1]] ∧
      alwaysUnsafe 0 detectProc.available_mutex [[1]] detectProc.allocation_mutex = true ∧
      sys_mutex_lock 0 0 alwaysUnsafe detectProc =
        some ⟨-0xdead, { detectProc with need_mutex := [[1]] }, false⟩) ∧
    (getMat detectProc.need_sem 0 0 = some 0 ∧
      setMat detectProc.need_sem 0 0 (0 + 1) = some [[1]] ∧
      alwaysUnsafe 0 detectProc.available_sem [[1]] detectProc.allocation_sem = true ∧
      sys_semaphore_down 0 0 alwaysUnsafe detectProc =
        some ⟨-0xdead, { detectProc with need_sem := [[1]] }, false⟩) :=
  ⟨unsafe_request_returns_sentinel.1,
   ⟨by decide, by decide, by decide, by decide,
    unsafe_request_returns_sentinel.2.1 0 0 alwaysUnsafe detectProc .spin [[1]]
      (by decide) (by decide) (by decide) (by decide)⟩,
   ⟨by decide, by decide, by decide,
    unsafe_request_returns_sentinel.2.2 0 0 alwaysUnsafe detectProc 1 0 [[1]]
      (by decide) (by decide) (by decide) (by decide) (by decide)⟩⟩

/-- C3: the semaphore deadlock check receives `sem_id`, not the calling
thread's id.  Thread 0 calls `sys_semaphore_down` on semaphore 1;
`unsafeAtOne` and `neverUnsafe` agree at the thread id (index 0) on the
actual snapshot, yet the two runs differ — the veto fires exactly when the
detector is unsafe at the *semaphore* id. -/
theorem sem_down_check_uses_sem_id :
    unsafeAtOne 0 semBugProc.available_sem [[0, 1]] semBugProc.allocation_sem =
      neverUnsafe 0 semBugProc.available_sem [[0, 1]] semBugProc.allocation_sem ∧
    sys_semaphore_down 0 1 unsafeAtOne semBugProc =
      some ⟨-0xdead, { semBugProc with need_sem := [[0, 1]] }, false⟩ ∧
    sys_semaphore_down 0 1 neverUnsafe semBugProc =
      some ⟨0, { semBugProc with
                  available_sem := [1, 0],
                  need_sem := [[0, 1]],
                  need_mutex := [[0, 0]],
                  allocation_sem := [[0, 1]] }, true⟩ := by
  decide

/-- C4 (semaphore half): a successful `sys_semaphore_down` decrements
`need_mutex[tid][sem_id]`, not `need_sem[tid][sem_id]`: after a successful
down by thread 0 on semaphore 1 the `need_sem` entry still carries the
step-1 increment (it is 1, not 0), while the `need_mutex` entry dropped
from 1 to 0. -/
theorem sem_down_decrements_wrong_need :
    sys_semaphore_down 0 1 neverUnsafe
        { semBugProc with deadlock_detect_enabled := false } =
      some ⟨0, { semBugProc with
                  deadlock_detect_enabled := false,
                  available_sem := [1, 0],
                  need_sem := [[0, 1]],
                  need_mutex := [[0, 0]],
                  allocation_sem := [[0, 1]] }, true⟩ ∧
    getMatD [[0, 1]] 0 1 = 1 ∧ getMatD [[0, 0]] 0 1 = 0 := by
  decide

theorem invalid_id_panics_witness :
    ((procEmptySlots.mutex_list.get? 0 = none ∨
        procEmptySlots.mutex_list.get? 0 = some none) ∧
      (sys_mutex_lock 3 0 (fun _ _ _ _ => true) procEmptySlots = none ∧
        sys_mutex_unlock 3 0 procEmptySlots = none)) ∧
    ((procEmptySlots.semaphore_list.get? 0 = none ∨
        procEmptySlots.semaphore_list.get? 0 = some none) ∧
      (sys_semaphore_down 3 0 (fun _ _ _ _ => true) procEmptySlots = none ∧
        sys_semaphore_up 3 0 procEmptySlots = none)) :=
  ⟨⟨Or.inr (by decide),
    (invalid_id_panics procEmptySlots 3 0 (fun _ _ _ _ => true)).1 (Or.inr (by decide))⟩,
   ⟨Or.inr (by decide),
    (invalid_id_panics procEmptySlots 3 0 (fun _ _ _ _ => true)).2 (Or.inr (by decide))⟩⟩

theorem subChecked_eq_some {a b c : Nat} :
    subChecked a b = some c ↔ b ≤ a ∧ c = a - b := by
  unfold subChecked
  split <;> simp_all [eq_comm]

theorem getD_set_self {α : Type} (l : List α) (i : Nat) (v d : α) (h : i < l.length) :
    (l.set i v).getD i d = v := by
  simp [List.getD_eq_getElem?_getD, List.getElem?_set_eq_of_lt, h]

theorem getD_set_ne {α : Type} (l : List α) (i j : Nat) (v d : α) (h : i ≠ j) :
    (l.set i v).getD j d = l.getD j d := by
  simp [List.getD_eq_getElem?_getD, List.getElem?_set_ne h]

theorem getD_of_get? {α : Type} {l : List α} {i : Nat} {a : α} (d : α)
    (h : l.get? i = some a) : l.getD i d = a := by
  rw [List.get?_eq_getElem?] at h
  simp [List.getD_eq_getElem?_getD, h]

theorem get?_eq_some_getD {α : Type} {l : List α} {i : Nat} (d : α) (h : i < l.length) :
    l.get? i = some (l.getD i d) := by
  rw [List.get?_eq_getElem?, List.getD_eq_getElem?_getD, List.getElem?_eq_getElem h]
  rfl

theorem colSum_set (alloc : List (List Nat)) (t : Nat) (row2 : List Nat) (r : Nat)
    (ht : t < alloc.length) :
    colSum (alloc.set t row2) r + (alloc.getD t []).getD r 0 =
      colSum alloc r + row2.getD r 0 := by
  induction alloc generalizing t with
  | nil => simp at ht
  | cons hd tl ih =>
    cases t with
    | zero =>
      simp only [List.set, colSum, List.getD_cons_zero]
      omega
    | succ n =>
      simp only [List.set, colSum, List.getD_cons_succ]
      have := ih n (by simpa using ht)
      omega

/-- Preservation core: setting `available[id] := a2` and
`allocation[tid][id] := b2` preserves the banker invariant whenever
`a2 + b2 = available[id] + allocation[tid][id]`. -/
theorem classInv_set_balanced (avail : List Nat) (alloc : List (List Nat))
    (total : Nat → Nat) (tid id : Nat) (row : List Nat) (a2 b2 : Nat)
    (hrow : alloc.get? tid = some row) (hid : id < avail.length)
    (hidr : id < row.length)
    (hbal : a2 + b2 = avail.getD id 0 + row.getD id 0)
    (hinv : classInv avail alloc total) :
    classInv (avail.set id a2) (alloc.set tid (row.set id b2)) total := by
  intro r2 hr2
  rw [List.length_set] at hr2
  obtain ⟨ht, -⟩ := List.get?_eq_some.mp hrow
  have hcs := colSum_set alloc tid (row.set id b2) r2 ht
  rw [getD_of_get? [] hrow] at hcs
  by_cases he : r2 = id
  · subst he
    rw [getD_set_self _ _ _ _ hid]
    rw [getD_set_self _ _ _ _ hidr] at hcs
    have := hinv r2 hr2
    omega
  · rw [getD_set_ne _ _ _ _ _ (fun hh => he hh.symm)]
    rw [getD_set_ne _ _ _ _ _ (fun hh => he hh.symm)] at hcs
    have := hinv r2 hr2
    omega

/-- C9: `sys_semaphore_up` unconditionally performs
`available_sem[sem_id] += 1` and `allocation_sem[tid][sem_id] -= 1` after
the semaphore `up()`; the unsigned decrement is well-defined exactly when
`allocation_sem[tid][sem_id] ≥ 1`, and an `up()` by a thread with no
recorded allocation for that semaphore panics on underflow instead of
succeeding. -/
theorem sem_up_underflow (tid sem_id : Nat) (s : ProcState) (c av0 : Nat)
    (row : List Nat)
    (hslot : s.semaphore_list.get? sem_id = some (some c))
    (hav : s.available_sem.get? sem_id = some av0)
    (hrow : s.allocation_sem.get? tid = some row)
    (hr : sem_id < row.length) :
    (1 ≤ row.getD sem_id 0 →
      sys_semaphore_up tid sem_id s =
        some (0, { s with
          available_sem := s.available_sem.set sem_id (av0 + 1),
          allocation_sem :=
            s.allocation_sem.set tid (row.set sem_id (row.getD sem_id 0 - 1)) })) ∧
    (row.getD sem_id 0 = 0 → sys_semaphore_up tid sem_id s = none) := by
  obtain ⟨havl, -⟩ := List.get?_eq_some.mp hav
  have hgm : getMat s.allocation_sem tid sem_id = some (row.getD sem_id 0) :=
    getMat_eq_some.mpr ⟨row, hrow, get?_eq_some_getD 0 hr⟩
  have hslot2 := hslot
  have hav2 := hav
  rw [List.get?_eq_getElem?] at hslot2 hav2
  constructor
  · intro hge
    have hsub : subChecked (row.getD sem_id 0) 1 = some (row.getD sem_id 0 - 1) :=
      subChecked_eq_some.mpr ⟨hge, rfl⟩
    have hsm : setMat s.allocation_sem tid sem_id (row.getD sem_id 0 - 1) =
        some (s.allocation_sem.set tid (row.set sem_id (row.getD sem_id 0 - 1))) :=
      setMat_eq_some.mpr ⟨row, hrow, hr, rfl⟩
    have hsn : setNth s.available_sem sem_id (av0 + 1) =
        some (s.available_sem.set sem_id (av0 + 1)) :=
      setNth_eq_some.mpr ⟨havl, rfl⟩
    simp only [List.getD_eq_getElem?_getD] at hsub hsm
    simp [sys_semaphore_up, Option.bind, hslot2, hav2, hgm, hsub, hsm, hsn,
      List.getD_eq_getElem?_getD]
  · intro hz
    have hsub : subChecked (row.getD sem_id 0) 1 = none := by
      rw [hz]
      decide
    simp only [List.getD_eq_getElem?_getD] at hsub
    simp [sys_semaphore_up, Option.bind, hslot2, hav2, hgm, hsub,
      List.getD_eq_getElem?_getD]
    split <;> rfl

theorem sem_up_underflow_witness :
    (semUpProc.semaphore_list.get? 0 = some (some 1) ∧
      semUpProc.available_sem.get? 0 = some 0 ∧
      semUpProc.allocation_sem.get? 0 = some [1] ∧
      0 < ([1] : List Nat).length ∧
      1 ≤ ([1] : List Nat).getD 0 0 ∧
      sys_semaphore_up 0 0 semUpProc =
        some (0, { semUpProc with available_sem := [1], allocation_sem := [[0]] })) ∧
    (detectProc.semaphore_list.get? 0 = some (some 1) ∧
      detectProc.available_sem.get? 0 = some 1 ∧
      detectProc.allocation_sem.get? 0 = some [0] ∧
      0 < ([0] : List Nat).length ∧
      ([0] : List Nat).getD 0 0 = 0 ∧
      sys_semaphore_up 0 0 detectProc = none) :=
  ⟨⟨by decide, by decide, by decide, by decide, by decide,
    (sem_up_underflow 0 0 semUpProc 1 0 [1]
      (by decide) (by decide) (by decide) (by decide)).1 (by decide)⟩,
   ⟨by decide, by decide, by decide, by decide, by decide,
    (sem_up_underflow 0 0 detectProc 1 1 [0]
      (by decide) (by decide) (by decide) (by decide)).2 (by decide)⟩⟩

/-- C5 counterexample: the invariant `available[r] + Σ_t allocation[t][r] =
1` holds in `unlockBadProc` (mutex 0 is held by thread 1), yet thread 0's
`sys_mutex_unlock(0)` returns 0 and breaks it: the update *sets*
`available[0] := 1` while thread 1's allocation entry stays 1, so the sum
becomes 2. -/
theorem inv_preservation_cex :
    classInv unlockBadProc.available_mutex unlockBadProc.allocation_mutex
      (fun _ => 1) ∧
    sys_mutex_unlock 0 0 unlockBadProc = some (0, unlockBadAfter) ∧
    ¬ classInv unlockBadAfter.available_mutex unlockBadAfter.allocation_mutex
      (fun _ => 1) := by
  decide

/-- C5 (amended): the table updates of the semaphore class preserve the
invariant unconditionally on success (`up`/`down` use `+= / -=`); the
mutex class updates *set* `available[id]` and `allocation[tid][id]` to
constants, so `lock`/`unlock` preserve the invariant exactly under the
extra hypothesis `available[id] + allocation[tid][id] = 1` (no *other*
thread holds a stale allocation for that mutex). -/
theorem table_updates_preserve_inv (total : Nat → Nat) :
    (∀ tid id d s r, sys_mutex_lock tid id d s = some r → r.ret = 0 →
      classInv s.available_mutex s.allocation_mutex total →
      s.available_mutex.getD id 0 + getMatD s.allocation_mutex tid id = 1 →
      classInv r.state.available_mutex r.state.allocation_mutex total) ∧
    (∀ tid id s p, sys_mutex_unlock tid id s = some p →
      classInv s.available_mutex s.allocation_mutex total →
      s.available_mutex.getD id 0 + getMatD s.allocation_mutex tid id = 1 →
      classInv p.2.available_mutex p.2.allocation_mutex total) ∧
    (∀ tid id d s r, sys_semaphore_down tid id d s = some r → r.ret = 0 →
      classInv s.available_sem s.allocation_sem total →
      classInv r.state.available_sem r.state.allocation_sem total) ∧
    (∀ tid id s p, sys_semaphore_up tid id s = some p →
      classInv s.available_sem s.allocation_sem total →
      classInv p.2.available_sem p.2.allocation_sem total) := by
  refine ⟨?_, ?_, ?_, ?_⟩
  · intro tid id d s r h hr hinv hown
    simp only [sys_mutex_lock, bind, Option.bind_eq_some] at h
    obtain ⟨slot, hslot, k, hk, nm, hnm, h⟩ := h
    split at h
    · cases h
      simp at hr
    · simp only [bind, Option.bind_eq_some] at h
      obtain ⟨am, ham, nm2, hnm2, al, hal, heq⟩ := h
      rw [setNth_eq_some] at ham
      rw [setMat_eq_some] at hal
      obtain ⟨hidlen, ham⟩ := ham
      obtain ⟨row, hrow, hidr, hal⟩ := hal
      cases heq
      subst ham hal
      exact classInv_set_balanced _ _ total tid id row 0 1 hrow hidlen hidr
        (by rw [getMatD, getD_of_get? [] hrow] at hown; omega) hinv
  · intro tid id s p h hinv hown
    simp only [sys_mutex_unlock, bind, Option.bind_eq_some] at h
    obtain ⟨slot, hslot, k, hk, am, ham, al, hal, heq⟩ := h
    rw [setNth_eq_some] at ham
    rw [setMat_eq_some] at hal
    obtain ⟨hidlen, ham⟩ := ham
    obtain ⟨row, hrow, hidr, hal⟩ := hal
    cases heq
    subst ham hal
    exact classInv_set_balanced _ _ total tid id row 1 0 hrow hidlen hidr
      (by rw [getMatD, getD_of_get? [] hrow] at hown; omega) hinv
  · intro tid id d s r h hr hinv
    simp only [sys_semaphore_down, bind, Option.bind_eq_some] at h
    obtain ⟨slot, hslot, k, hk, n0, hn0, ns, hns, h⟩ := h
    split at h
    · cases h
      simp at hr
    · simp only [bind, Option.bind_eq_some] at h
      obtain ⟨av0, hav0, av1, hav1, av, hav, nm0, hnm0, nm1, hnm1, nm, hnm,
        al0, hal0, al, hal, heq⟩ := h
      rw [setNth_eq_some] at hav
      rw [setMat_eq_some] at hal
      rw [getMat_eq_some] at hal0
      rw [subChecked_eq_some] at hav1
      obtain ⟨hidlen, hav⟩ := hav
      obtain ⟨row, hrow, hidr, hal⟩ := hal
      obtain ⟨row', hrow', hget'⟩ := hal0
      rw [hrow'] at hrow
      cases hrow
      cases heq
      obtain ⟨hge1, hav1⟩ := hav1
      subst hav hal hav1
      have hb : row.getD id 0 = al0 := getD_of_get? 0 hget'
      have ha : s.available_sem.getD id 0 = av0 := getD_of_get? 0 hav0
      exact classInv_set_balanced _ _ total tid id row (av0 - 1) (al0 + 1)
        hrow' hidlen hidr (by omega) hinv
  · intro tid id s p h hinv
    simp only [sys_semaphore_up, bind, Option.bind_eq_some] at h
    obtain ⟨slot, hslot, k, hk, av0, hav0, av, hav, al0, hal0, al1, hal1,
      al, hal, heq⟩ := h
    rw [setNth_eq_some] at hav
    rw [setMat_eq_some] at hal
    rw [getMat_eq_some] at hal0
    rw [subChecked_eq_some] at hal1
    obtain ⟨hidlen, hav⟩ := hav
    obtain ⟨row, hrow, hidr, hal⟩ := hal
    obtain ⟨row', hrow', hget'⟩ := hal0
    rw [hrow'] at hrow
    cases hrow
    cases heq
    obtain ⟨hge1, hal1⟩ := hal1
    subst hav hal hal1
    have hb : row.getD id 0 = al0 := getD_of_get? 0 hget'
    have ha : s.available_sem.getD id 0 = av0 := getD_of_get? 0 hav0
    exact classInv_set_balanced _ _ total tid id row (av0 + 1) (al0 - 1)
      hrow' hidlen hidr (by omega) hinv

theorem table_updates_preserve_inv_witness :
    sys_mutex_unlock 1 0 unlockBadProc =
      some (0, { unlockBadProc with
                  available_mutex := [1],
                  allocation_mutex := [[0], [0]] }) ∧
    classInv unlockBadProc.available_mutex unlockBadProc.allocation_mutex
      (fun _ => 1) ∧
    unlockBadProc.available_mutex.getD 0 0 +
      getMatD unlockBadProc.allocation_mutex 1 0 = 1 ∧
    classInv [1] [[0], [0]] (fun _ => 1) :=
  ⟨by decide, by decide, by decide,
   (table_updates_preserve_inv (fun _ => 1)).2.1 1 0 unlockBadProc
     (0, { unlockBadProc with
           available_mutex := [1],
           allocation_mutex := [[0], [0]] })
     (by decide) (by decide) (by decide)⟩

theorem vecResize_length (l : List Nat) (n v : Nat) : (vecResize l n v).length = n := by
  unfold vecResize
  split
  · simp
    omega
  · simp
    omega

/-- C8 counterexample: with `semaphore_list = [some 1]` (no free slot) and
`available_sem` of the same length 1, `sys_semaphore_create` does not
return the previous length with the tables filled — it panics on the
unresized `available_sem[1]` write. -/
theorem create_cex : sys_semaphore_create 2 semFullProc = none := by
  decide

/-- C8 (amended): creation returns the smallest `None` slot index if one
exists, otherwise the previous table length with a fresh appended slot; on
return the slot holds the created primitive and its `available` entry is 1
(mutex) or `res_count` (semaphore) — provided the class's `available`
vector covers the written index (automatic for the mutex append branch,
which resizes; required for the semaphore append branch, which does not). -/
theorem create_reuses_smallest_slot :
    (∀ (s : ProcState) (blocking : Bool) (id : Nat),
      s.mutex_list.get? id = some none →
      (∀ j, j < id → s.mutex_list.get? j ≠ some none) →
      id < s.available_mutex.length →
      ∃ s2, sys_mutex_create blocking s = some ((id : Int), s2) ∧
        (∃ k, s2.mutex_list.get? id = some (some k)) ∧
        s2.available_mutex.getD id 0 = 1) ∧
    (∀ s blocking, (∀ slot ∈ s.mutex_list, slot ≠ none) →
      ∃ s2, sys_mutex_create blocking s = some ((s.mutex_list.length : Int), s2) ∧
        (∃ k, s2.mutex_list.get? s.mutex_list.length = some (some k)) ∧
        s2.available_mutex.getD s.mutex_list.length 0 = 1) ∧
    (∀ (s : ProcState) (res_count : Nat) (id : Nat),
      s.semaphore_list.get? id = some none →
      (∀ j, j < id → s.semaphore_list.get? j ≠ some none) →
      id < s.available_sem.length →
      ∃ s2, sys_semaphore_create res_count s = some ((id : Int), s2) ∧
        s2.semaphore_list.get? id = some (some res_count) ∧
        s2.available_sem.getD id 0 = res_count) ∧
    (∀ s res_count, (∀ slot ∈ s.semaphore_list, slot ≠ none) →
      s.semaphore_list.length < s.available_sem.length →
      ∃ s2, sys_semaphore_create res_count s =
          some ((s.semaphore_list.length : Int), s2) ∧
        s2.semaphore_list.get? s.semaphore_list.length = some (some res_count) ∧
        s2.available_sem.getD s.semaphore_list.length 0 = res_count) := by
  refine ⟨?_, ?_, ?_, ?_⟩
  · intro s blocking id h0 hleast hlen
    rw [List.get?_eq_getElem?] at h0
    obtain ⟨hid, hat⟩ := List.getElem?_eq_some.mp h0
    have hfind : s.mutex_list.findIdx? (fun item => item.isNone) = some id := by
      rw [List.findIdx?_eq_some_iff_getElem]
      refine ⟨hid, by simp [hat], ?_⟩
      intro j hji
      have hjlen : j < s.mutex_list.length := lt_trans hji hid
      have hne := hleast j hji
      rw [List.get?_eq_getElem?, List.getElem?_eq_getElem hjlen] at hne
      simp only [Option.isNone_iff_eq_none]
      intro hcontra
      exact hne (by rw [hcontra])
    refine ⟨{ s with
              mutex_list := s.mutex_list.set id
                (if !blocking then some .spin else some .blocking),
              available_mutex := s.available_mutex.set id 1 }, ?_, ?_, ?_⟩
    · simp [sys_mutex_create, hfind, setNth, hlen, Option.bind]
    · refine ⟨if blocking then .blocking else .spin, ?_⟩
      rw [List.get?_eq_getElem?, List.getElem?_set_eq_of_lt _ hid]
      cases blocking <;> rfl
    · exact getD_set_self _ _ _ _ hlen
  · intro s blocking hall
    have hfind : s.mutex_list.findIdx? (fun item => item.isNone) = none := by
      rw [List.findIdx?_eq_none_iff]
      intro x hx
      cases x
      · exact absurd rfl (hall none hx)
      · rfl
    have hrl : (vecResize s.available_mutex (s.mutex_list.length + 1) 0).length =
        s.mutex_list.length + 1 := vecResize_length _ _ _
    have hlt : s.mutex_list.length <
        (vecResize s.available_mutex (s.mutex_list.length + 1) 0).length := by
      omega
    refine ⟨{ s with
              mutex_list := s.mutex_list ++
                [if !blocking then some MutexKind.spin else some MutexKind.blocking],
              available_mutex := (vecResize s.available_mutex
                (s.mutex_list.length + 1) 0).set s.mutex_list.length 1 }, ?_, ?_, ?_⟩
    · simp [sys_mutex_create, hfind, setNth, hlt, Option.bind]
    · refine ⟨if blocking then .blocking else .spin, ?_⟩
      rw [List.get?_eq_getElem?]
      have := List.getElem?_concat_length s.mutex_list
        (if !blocking then some MutexKind.spin else some MutexKind.blocking)
      rw [this]
      cases blocking <;> rfl
    · exact getD_set_self _ _ _ _ hlt
  · intro s res_count id h0 hleast hlen
    rw [List.get?_eq_getElem?] at h0
    obtain ⟨hid, hat⟩ := List.getElem?_eq_some.mp h0
    have hfind : s.semaphore_list.findIdx? (fun item => item.isNone) = some id := by
      rw [List.findIdx?_eq_some_iff_getElem]
      refine ⟨hid, by simp [hat], ?_⟩
      intro j hji
      have hjlen : j < s.semaphore_list.length := lt_trans hji hid
      have hne := hleast j hji
      rw [List.get?_eq_getElem?, List.getElem?_eq_getElem hjlen] at hne
      simp only [Option.isNone_iff_eq_none]
      intro hcontra
      exact hne (by rw [hcontra])
    refine ⟨{ s with
              semaphore_list := s.semaphore_list.set id (some res_count),
              available_sem := s.available_sem.set id res_count }, ?_, ?_, ?_⟩
    · simp [sys_semaphore_create, hfind, setNth, hlen, Option.bind]
    · rw [List.get?_eq_getElem?, List.getElem?_set_eq_of_lt _ hid]
    · exact getD_set_self _ _ _ _ hlen
  · intro s res_count hall hlen
    have hfind : s.semaphore_list.findIdx? (fun item => item.isNone) = none := by
      rw [List.findIdx?_eq_none_iff]
      intro x hx
      cases x
      · exact absurd rfl (hall none hx)
      · rfl
    refine ⟨{ s with
              semaphore_list := s.semaphore_list ++ [some res_count],
              available_sem :=
                s.available_sem.set s.semaphore_list.length res_count },
      ?_, ?_, ?_⟩
    · simp [sys_semaphore_create, hfind, setNth, hlen, Option.bind]
    · rw [List.get?_eq_getElem?]
      exact List.getElem?_concat_length s.semaphore_list (some res_count)
    · exact getD_set_self _ _ _ _ hlen

theorem create_reuses_smallest_slot_witness :
    (procEmptySlots.mutex_list.get? 0 = some none ∧
      (∀ j, j < 0 → procEmptySlots.mutex_list.get? j ≠ some none) ∧
      0 < procEmptySlots.available_mutex.length ∧
      ∃ s2, sys_mutex_create true procEmptySlots = some ((0 : Int), s2) ∧
        (∃ k, s2.mutex_list.get? 0 = some (some k)) ∧
        s2.available_mutex.getD 0 0 = 1) ∧
    ((∀ slot ∈ semFullLongAvail.semaphore_list, slot ≠ none) ∧
      semFullLongAvail.semaphore_list.length <
        semFullLongAvail.available_sem.length ∧
      ∃ s2, sys_semaphore_create 3 semFullLongAvail =
          some ((semFullLongAvail.semaphore_list.length : Int), s2) ∧
        s2.semaphore_list.get? semFullLongAvail.semaphore_list.length =
          some (some 3) ∧
        s2.available_sem.getD semFullLongAvail.semaphore_list.length 0 = 3) :=
  ⟨⟨by decide, by omega, by decide,
    create_reuses_smallest_slot.1 procEmptySlots true 0 (by decide)
      (by omega) (by decide)⟩,
   ⟨by decide, by decide,
    create_reuses_smallest_slot.2.2.2 semFullLongAvail 3 (by decide) (by decide)⟩⟩

/-- C10: when no free slot exists, `sys_semaphore_create` appends and
writes `available_sem[new_id]` without first resizing — the call succeeds
(no panic) exactly when `available_sem` is already longer than the old
`semaphore_list` — whereas `sys_mutex_create`'s append branch resizes
`available_mutex` before writing and always succeeds. -/
theorem sem_create_append_unchecked (s : ProcState) (res_count : Nat)
    (h : ∀ slot ∈ s.semaphore_list, slot ≠ none) :
    ((∃ p, sys_semaphore_create res_count s = some p) ↔
      s.semaphore_list.length < s.available_sem.length) ∧
    (∀ blocking, (∀ slot ∈ s.mutex_list, slot ≠ none) →
      ∃ p, sys_mutex_create blocking s = some p) := by
  have hfind : s.semaphore_list.findIdx? (fun item => item.isNone) = none := by
    rw [List.findIdx?_eq_none_iff]
    intro x hx
    cases x
    · exact absurd rfl (h none hx)
    · rfl
  constructor
  · constructor
    · rintro ⟨p, hp⟩
      by_contra hc
      simp [sys_semaphore_create, hfind, setNth, hc, Option.bind] at hp
    · intro hc
      refine ⟨((s.semaphore_list.length : Int),
        { s with
          semaphore_list := s.semaphore_list ++ [some res_count],
          available_sem :=
            s.available_sem.set s.semaphore_list.length res_count }), ?_⟩
      simp [sys_semaphore_create, hfind, setNth, hc, Option.bind]
  · intro blocking hm
    have hfindm : s.mutex_list.findIdx? (fun item => item.isNone) = none := by
      rw [List.findIdx?_eq_none_iff]
      intro x hx
      cases x
      · exact absurd rfl (hm none hx)
      · rfl
    have hlt : s.mutex_list.length <
        (vecResize s.available_mutex (s.mutex_list.length + 1) 0).length := by
      rw [vecResize_length]
      omega
    refine ⟨((s.mutex_list.length : Int),
      { s with
        mutex_list := s.mutex_list ++
          [if !blocking then some MutexKind.spin else some MutexKind.blocking],
        available_mutex := (vecResize s.available_mutex
          (s.mutex_list.length + 1) 0).set s.mutex_list.length 1 }), ?_⟩
    simp [sys_mutex_create, hfindm, setNth, hlt, Option.bind]

theorem sem_create_append_unchecked_witness :
    (∀ slot ∈ semFullProc.semaphore_list, slot ≠ none) ∧
    (((∃ p, sys_semaphore_create 2 semFullProc = some p) ↔
        semFullProc.semaphore_list.length < semFullProc.available_sem.length) ∧
      (∀ blocking, (∀ slot ∈ semFullProc.mutex_list, slot ≠ none) →
        ∃ p, sys_mutex_create blocking semFullProc = some p)) :=
  ⟨by decide, sem_create_append_unchecked semFullProc 2 (by decide)⟩

theorem getD_mem {l : List Nat} {n : Nat} (d : Nat) (h : n < l.length) :
    l.getD n d ∈ l := by
  rw [List.getD_eq_getElem?_getD, List.getElem?_eq_getElem h]
  exact List.getElem_mem h

theorem scanMin_no_update (q : List Nat) (idx mi ms : Nat)
    (h : ∀ st ∈ q, ms < st) :
    TaskManager.scanMin q idx mi ms = (mi, ms) := by
  induction q generalizing idx with
  | nil => rfl
  | cons st rest ih =>
    have hst := h st (by simp)
    simp only [TaskManager.scanMin, if_neg (by omega : ¬ st ≤ ms)]
    exact ih (idx + 1) (fun x hx => h x (by simp [hx]))

/-- The scan loop of `fetch` returns (as `min_index`) `idx` plus the
position of the *last* element attaining the running minimum, and (as
`min_stride`) that minimum, provided some element is ≤ the initial
`min_stride`. -/
theorem scanMin_spec (q : List Nat) (idx mi ms : Nat)
    (hex : ∃ st ∈ q, st ≤ ms) :
    ∃ k, k < q.length ∧
      (TaskManager.scanMin q idx mi ms).1 = idx + k ∧
      (TaskManager.scanMin q idx mi ms).2 = q.getD k 0 ∧
      (TaskManager.scanMin q idx mi ms).2 ≤ ms ∧
      (∀ st ∈ q, (TaskManager.scanMin q idx mi ms).2 ≤ st) ∧
      (∀ j, k < j → j < q.length →
        (TaskManager.scanMin q idx mi ms).2 < q.getD j 0) := by
  induction q generalizing idx mi ms with
  | nil => simp at hex
  | cons st rest ih =>
    by_cases hst : st ≤ ms
    · simp only [TaskManager.scanMin, if_pos hst]
      by_cases hex2 : ∃ x ∈ rest, x ≤ st
      · obtain ⟨k, hk, h1, h2, h3, h4, h5⟩ := ih (idx + 1) idx st hex2
        refine ⟨k + 1, by simp only [List.length_cons]; omega,
          by rw [h1]; omega, by simpa using h2, by omega, ?_, ?_⟩
        · intro x hx
          rcases List.mem_cons.mp hx with rfl | hx2
          · omega
          · exact h4 x hx2
        · intro j hj hjl
          cases j with
          | zero => omega
          | succ j2 =>
            simp only [List.getD_cons_succ]
            exact h5 j2 (by omega) (by simpa using hjl)
      · push_neg at hex2
        have hgt : ∀ x ∈ rest, st < x := hex2
        rw [scanMin_no_update rest (idx + 1) idx st hgt]
        refine ⟨0, by simp, by simp, by simp, by simpa using hst, ?_, ?_⟩
        · intro x hx
          rcases List.mem_cons.mp hx with rfl | hx2
          · simp
          · simpa using Nat.le_of_lt (hgt x hx2)
        · intro j hj hjl
          cases j with
          | zero => omega
          | succ j2 =>
            simp only [List.getD_cons_succ]
            have hmem : rest.getD j2 0 ∈ rest :=
              getD_mem 0 (by simpa using hjl)
            simpa using hgt _ hmem
    · simp only [TaskManager.scanMin, if_neg hst]
      have hex2 : ∃ x ∈ rest, x ≤ ms := by
        obtain ⟨x, hx, hxle⟩ := hex
        rcases List.mem_cons.mp hx with rfl | hx2
        · omega
        · exact ⟨x, hx2, hxle⟩
      obtain ⟨k, hk, h1, h2, h3, h4, h5⟩ := ih (idx + 1) mi ms hex2
      refine ⟨k + 1, by simp only [List.length_cons]; omega,
        by rw [h1]; omega, by simpa using h2, h3, ?_, ?_⟩
      · intro x hx
        rcases List.mem_cons.mp hx with rfl | hx2
        · omega
        · exact h4 x hx2
      · intro j hj hjl
        cases j with
        | zero => omega
        | succ j2 =>
          simp only [List.getD_cons_succ]
          exact h5 j2 (by omega) (by simpa using hjl)

/-- C6: on a non-empty ready queue whose strides are all ≤ `BIG_STRIDE`,
`TaskManager::fetch` removes and returns the task at the *largest* index
among those attaining the minimum stride (the non-strict `<=` scan lets
later equal entries displace earlier ones), with `update_stride` applied
to the returned task. -/
theorem fetch_selects_last_min (upd : Nat → Nat) (big : Nat) (q : List Nat)
    (hne : q ≠ []) (hall : ∀ st ∈ q, st ≤ big) :
    ∃ L, L < q.length ∧
      TaskManager.fetch upd big q = some (upd (q.getD L 0), q.eraseIdx L) ∧
      (∀ st ∈ q, q.getD L 0 ≤ st) ∧
      (∀ j, L < j → j < q.length → q.getD L 0 < q.getD j 0) := by
  have hex : ∃ st ∈ q, st ≤ big := by
    cases q with
    | nil => exact absurd rfl hne
    | cons a l => exact ⟨a, by simp, hall a (by simp)⟩
  obtain ⟨k, hk, h1, h2, h3, h4, h5⟩ := scanMin_spec q 0 0 big hex
  have hemp : q.isEmpty = false := by
    cases q with
    | nil => exact absurd rfl hne
    | cons a l => rfl
  refine ⟨k, hk, ?_, ?_, ?_⟩
  · simp [TaskManager.fetch, hemp, h1]
  · intro x hx
    have := h4 x hx
    rwa [h2] at this
  · intro j hj hjl
    have := h5 j hj hjl
    rwa [h2] at this

theorem fetch_selects_last_min_witness :
    ([7, 4, 4] : List Nat) ≠ [] ∧
    (∀ st ∈ ([7, 4, 4] : List Nat), st ≤ 10) ∧
    ∃ L, L < ([7, 4, 4] : List Nat).length ∧
      TaskManager.fetch (fun st => st + 2) 10 [7, 4, 4] =
        some ((fun st => st + 2) (([7, 4, 4] : List Nat).getD L 0),
          ([7, 4, 4] : List Nat).eraseIdx L) ∧
      (∀ st ∈ ([7, 4, 4] : List Nat), ([7, 4, 4] : List Nat).getD L 0 ≤ st) ∧
      (∀ j, L < j → j < ([7, 4, 4] : List Nat).length →
        ([7, 4, 4] : List Nat).getD L 0 < ([7, 4, 4] : List Nat).getD j 0) :=
  ⟨by decide, by decide,
   fetch_selects_last_min (fun st => st + 2) 10 [7, 4, 4] (by decide) (by decide)⟩
